import Mathlib

/-!
Verification of the geography-game repository's core logic: the Natural Earth
data normalizer (`src/app/lib/mapUtils.ts`), the difficulty filters
(`src/app/lib/types.ts`), the game state machine
(`src/app/hooks/useGeographyGame.ts`) and the pure game-logic helpers
(`src/app/lib/gameLogic.ts`), shallowly embedded in Lean.

Modelling conventions:
- Loosely typed JavaScript property values are modelled by `JSVal`.  JS
  truthiness, `typeof x === "string"` checks and `a || b` fallbacks are
  modelled on that type.  Strict equality `===` is modelled by decidable
  equality (all values compared by the code at hand are primitives).
- JS numbers are modelled by `ℚ` (exact rationals).  IEEE-754 rounding, `NaN`
  and `Infinity` are not modelled; no claim under verification depends on
  them.
- `String.prototype.localeCompare` is modelled as lexicographic comparison of
  the character sequences (`strLe`); ICU collation tables are not modelled.
- `Array.prototype.sort` (stable in ES2019+) is modelled by `List.mergeSort`.
- `Math.random()`-based index selection is modelled by an explicit index
  parameter reduced modulo the list length.
-/

/-- Model of a loosely typed JavaScript value as stored in the raw Natural
Earth property bags. -/
inductive JSVal where
  | undef
  | nul
  | bool (b : Bool)
  | num (q : ℚ)
  | str (s : String)
  | obj
deriving DecidableEq

/-- JS truthiness: `undefined`, `null`, `false`, `0` and `""` are falsy,
everything else (modelled here) is truthy. -/
def JSVal.truthy : JSVal → Bool
  | JSVal.undef => false
  | JSVal.nul => false
  | JSVal.bool b => b
  | JSVal.num q => decide (q ≠ 0)
  | JSVal.str s => decide (s ≠ "")
  | JSVal.obj => true

/-- Model of `typeof v === "string"`. -/
def JSVal.isString : JSVal → Bool
  | JSVal.str _ => true
  | _ => false

/-- Model of the JS short-circuit fallback `a || b`. -/
def jsOr (a b : JSVal) : JSVal :=
  if a.truthy then a else b

/-- Model of JS template-literal conversion of a property value to text.
String values pass through unchanged.  JS number formatting is not modelled
(no claim depends on it). -/
def jsDisplay : JSVal → String
  | JSVal.str s => s
  | JSVal.undef => "undefined"
  | JSVal.nul => "null"
  | JSVal.bool true => "true"
  | JSVal.bool false => "false"
  | JSVal.num _ => "[number]"
  | JSVal.obj => "[object Object]"

/-- Lexicographic order on character lists; the model of the comparator
induced by `a.localeCompare(b) <= 0`. -/
def charListLe : List Char → List Char → Bool
  | [], _ => true
  | _ :: _, [] => false
  | a :: as, b :: bs => if a = b then charListLe as bs else decide (a < b)

/-- Lexicographic string order modelling `localeCompare`-based ordering. -/
def strLe (s t : String) : Bool := charListLe s.data t.data

/-- Substring occurrence: `pat` occurs contiguously inside `s`. -/
def strContains (s pat : String) : Prop := ∃ pre post, s = pre ++ pat ++ post

/-- Geometry is opaque to the normalizer beyond its type tag
(`geometry.type` in the GeoJSON input); only the tag is modelled. -/
structure RawGeom where
  gtype : String
deriving DecidableEq

/-- The raw Natural Earth property bag (`RawCountryProperties` in
`mapUtils.ts`): every field is optional and loosely typed. -/
structure RawCountryProperties where
  NAME : JSVal
  ADMIN : JSVal
  NAME_EN : JSVal
  NAME_LONG : JSVal
  ISO_A2 : JSVal
  ISO_A3 : JSVal
  ISO : JSVal
  POP_EST : JSVal
  CONTINENT : JSVal
  SUBREGION : JSVal
  REGION_UN : JSVal
  REGION_WB : JSVal
deriving DecidableEq

/-- A raw GeoJSON feature (`RawCountryFeature` in `mapUtils.ts`).
`properties` is `none` when absent or falsy; a truthy non-object
`properties` value behaves identically to an absent one under
`validateCountryFeature` (every `typeof ... === "string"` test fails), so the
collapse is observation-preserving.  `geometry` is `none` when absent or
falsy. -/
structure RawCountryFeature where
  ftype : JSVal
  properties : Option RawCountryProperties
  geometry : Option RawGeom
deriving DecidableEq

/-- The raw fetched collection (`RawGeoJsonData` in `mapUtils.ts`).
`features` is `some fs` when the `features` field holds an array (whose
elements are `none` for falsy/non-feature entries), and `none` when the field
is missing or not an array. -/
structure RawGeoJsonData where
  features : Option (List (Option RawCountryFeature))
deriving DecidableEq

/-- The cleaned property object built by `prepareCountryData`
(`CountryProperties` in `types.ts`).  `POP_EST` is always a number after
cleaning; the name-like fields keep the loose `JSVal` type because the `||`
fallback chains can propagate non-string truthy raw values. -/
structure CountryProperties where
  NAME : JSVal
  ADMIN : JSVal
  NAME_LONG : JSVal
  POP_EST : ℚ
  CONTINENT : JSVal
  SUBREGION : JSVal
  REGION_UN : JSVal
  REGION_WB : JSVal
  ISO_A2 : JSVal
  ISO_A3 : JSVal
deriving DecidableEq

/-- A cleaned country feature (`CountryFeature` in `types.ts`). -/
structure CountryFeature where
  ftype : JSVal
  geometry : Option RawGeom
  properties : CountryProperties
deriving DecidableEq

/-- The display name of a cleaned record, as consumed by the sort comparator
`a.properties.NAME.localeCompare(b.properties.NAME)`.  After the essential
filter the `NAME` field is always a string; other shapes never reach the
comparator. -/
def nameStr (c : CountryFeature) : String :=
  match c.properties.NAME with
  | JSVal.str s => s
  | _ => ""

/-- The sort comparator of `prepareCountryData`, as a boolean `le`. -/
def nameLe (a b : CountryFeature) : Bool := strLe (nameStr a) (nameStr b)

/-- Model of `validateCountryFeature` in `mapUtils.ts`: the element must be a
truthy feature object tagged `"Feature"`, with a truthy properties object
providing a string `NAME` or `ADMIN` and a string `ISO_A2` or `ISO`, and a
truthy geometry of type `"Polygon"` or `"MultiPolygon"`. -/
def validateCountryFeature : Option RawCountryFeature → Bool
  | none => false
  | some f =>
    f.ftype == JSVal.str "Feature" &&
    (match f.properties with
     | none => false
     | some p =>
       (p.NAME.isString || p.ADMIN.isString) &&
       (p.ISO_A2.isString || p.ISO.isString) &&
       (match f.geometry with
        | none => false
        | some g => g.gtype == "Polygon" || g.gtype == "MultiPolygon"))

/-- Skip the leading whitespace that JS `parseFloat` ignores. -/
def skipWhitespace : List Char → List Char
  | [] => []
  | c :: cs => if c = ' ' ∨ c = '\t' ∨ c = '\n' ∨ c = '\r' then skipWhitespace cs else c :: cs

/-- Longest leading run of decimal digits, and the rest. -/
def takeDigits : List Char → List Char × List Char
  | [] => ([], [])
  | c :: cs =>
    if c.isDigit then
      let r := takeDigits cs
      (c :: r.1, r.2)
    else ([], c :: cs)

/-- Numeric value of a digit run. -/
def digitsToNat (ds : List Char) : ℕ :=
  ds.foldl (fun acc c => 10 * acc + (c.toNat - 48)) 0

/-- Exact value of a parsed decimal literal
`sign * intDigits.fracDigits * 10 ^ exp`.  Built from integer casts and
`mkRat` only, so that it evaluates inside the kernel. -/
def decimalValue (sign : ℤ) (intDigits fracDigits : List Char) (exp : ℤ) : ℚ :=
  let mant : ℤ := (digitsToNat intDigits * 10 ^ fracDigits.length + digitsToNat fracDigits : ℕ)
  let e : ℤ := exp - fracDigits.length
  if 0 ≤ e then ((sign * mant * 10 ^ e.toNat : ℤ) : ℚ)
  else mkRat (sign * mant) (10 ^ (-e).toNat)

/-- Exponent part of a JS float literal: `e`/`E`, an optional sign and a
digit run.  As in `parseFloat`, an exponent marker not followed by digits is
ignored. -/
def parseExponent (cs : List Char) : ℤ :=
  match cs with
  | [] => 0
  | c :: rest =>
    if c = 'e' ∨ c = 'E' then
      let p : ℤ × List Char :=
        match rest with
        | '-' :: r => (-1, r)
        | '+' :: r => (1, r)
        | r => (1, r)
      let eds := (takeDigits p.2).1
      if eds.isEmpty then 0 else p.1 * digitsToNat eds
    else 0

/-- Model of JS `parseFloat`: skip whitespace, optional sign, integer digits,
optional fractional digits, optional exponent; `none` models `NaN` (no digits
at all).  The `Infinity` literal and IEEE-754 rounding are not modelled: the
result is the exact rational value of the parsed prefix. -/
def jsParseFloat (s : String) : Option ℚ :=
  let cs := skipWhitespace s.data
  let p : ℤ × List Char :=
    match cs with
    | '-' :: r => (-1, r)
    | '+' :: r => (1, r)
    | r => (1, r)
  let ipr := takeDigits p.2
  let fpr : List Char × List Char :=
    match ipr.2 with
    | '.' :: r => takeDigits r
    | r => ([], r)
  if ipr.1.isEmpty ∧ fpr.1.isEmpty then none
  else some (decimalValue p.1 ipr.1 fpr.1 (parseExponent fpr.2))

/-- Model of `parsePopulation` in `mapUtils.ts`: numbers pass through,
strings go through `parseFloat` with `NaN` coerced to `0`, anything else
becomes `0`. -/
def parsePopulation : JSVal → ℚ
  | JSVal.num q => q
  | JSVal.str s =>
    match jsParseFloat s with
    | some q => q
    | none => 0
  | _ => 0

/-- Model of `getBestName` in `mapUtils.ts`:
`props.NAME || props.ADMIN || props.NAME_EN || "Unknown"`. -/
def getBestName (props : RawCountryProperties) : JSVal :=
  jsOr props.NAME (jsOr props.ADMIN (jsOr props.NAME_EN (JSVal.str "Unknown")))

/-- Model of `getBestIsoCode` in `mapUtils.ts`:
`props.ISO_A2 || props.ISO || ""`. -/
def getBestIsoCode (props : RawCountryProperties) : JSVal :=
  jsOr props.ISO_A2 (jsOr props.ISO (JSVal.str ""))

/-- Placeholder record for the unreachable arms of `cleanFeature`: the map
stage of `prepareCountryData` runs only after `validateCountryFeature`, which
guarantees a present feature with a present properties object. -/
def junkCountryFeature : CountryFeature :=
  CountryFeature.mk JSVal.undef none
    (CountryProperties.mk JSVal.undef JSVal.undef JSVal.undef 0 JSVal.undef JSVal.undef
      JSVal.undef JSVal.undef JSVal.undef JSVal.undef)

/-- The map stage of `prepareCountryData`: build the cleaned properties with
the fallback chains of the source and carry `type` and `geometry` through. -/
def cleanFeature : Option RawCountryFeature → CountryFeature
  | none => junkCountryFeature
  | some f =>
    match f.properties with
    | none => junkCountryFeature
    | some props =>
      let name := getBestName props
      let isoA2 := getBestIsoCode props
      CountryFeature.mk f.ftype f.geometry
        (CountryProperties.mk
          name
          (jsOr props.ADMIN name)
          (jsOr props.NAME_LONG name)
          (parsePopulation props.POP_EST)
          (jsOr props.CONTINENT (jsOr props.REGION_UN (JSVal.str "Unknown")))
          (jsOr props.SUBREGION (jsOr props.REGION_WB (JSVal.str "")))
          (jsOr props.REGION_UN (JSVal.str ""))
          (jsOr props.REGION_WB (JSVal.str ""))
          isoA2
          (jsOr props.ISO_A3 (JSVal.str "")))

/-- The second-pass filter of `prepareCountryData`: keep records whose `NAME`
is a string other than `"Unknown"` and whose `ISO_A2` is a string other than
the sentinel `"-99"`. -/
def essentialFilter (c : CountryFeature) : Bool :=
  c.properties.NAME.isString &&
  c.properties.NAME != JSVal.str "Unknown" &&
  c.properties.ISO_A2.isString &&
  c.properties.ISO_A2 != JSVal.str "-99"

/-- Model of `prepareCountryData` in `mapUtils.ts`: fail when `features` is
missing or not an array, otherwise validate, clean, filter and sort by
display name. -/
def prepareCountryData (rawData : RawGeoJsonData) : Except String (List CountryFeature) :=
  match rawData.features with
  | none => Except.error "Invalid GeoJSON data structure"
  | some fs =>
    Except.ok
      ((((fs.filter validateCountryFeature).map cleanFeature).filter essentialFilter).mergeSort
        nameLe)

/-- Difficulty levels (`GameState["difficulty"]` in `types.ts`). -/
inductive Difficulty where
  | easy
  | medium
  | hard
deriving DecidableEq

/-- Model of `Array.prototype.includes` on the string allow-list: strict
equality against each element, so a non-string value never matches. -/
def jsIncludesStr (l : List String) (v : JSVal) : Bool :=
  match v with
  | JSVal.str s => l.contains s
  | _ => false

/-- The fixed allow-list of widely known large countries from the `easy`
filter in `types.ts`. -/
def easyAllowList : List String :=
  ["United States of America", "China", "India", "Brazil", "Russia", "Canada",
   "Australia", "Mexico", "Japan", "Germany", "United Kingdom", "France", "Italy"]

/-- The `easy` filter of `DIFFICULTY_CONFIGS`:
`POP_EST > 50000000 || allowList.includes(ADMIN)`. -/
def easyFilter (country : CountryFeature) : Bool :=
  decide (country.properties.POP_EST > 50000000) ||
  jsIncludesStr easyAllowList country.properties.ADMIN

/-- The `medium` filter of `DIFFICULTY_CONFIGS`:
`POP_EST > 10000000 && POP_EST <= 50000000`. -/
def mediumFilter (country : CountryFeature) : Bool :=
  decide (country.properties.POP_EST > 10000000) &&
  decide (country.properties.POP_EST ≤ 50000000)

/-- The `hard` filter of `DIFFICULTY_CONFIGS`: every country is included. -/
def hardFilter (_country : CountryFeature) : Bool := true

/-- Structure `DifficultyConfig` in `types.ts`. -/
structure DifficultyConfig where
  name : String
  description : String
  filter : CountryFeature → Bool
  color : String

/-- Constant `DIFFICULTY_CONFIGS` in `types.ts`. -/
def DIFFICULTY_CONFIGS : Difficulty → DifficultyConfig
  | Difficulty.easy =>
    DifficultyConfig.mk "Easy" "Large, well-known countries" easyFilter
      "bg-green-100 text-green-800"
  | Difficulty.medium =>
    DifficultyConfig.mk "Medium" "Medium-sized countries" mediumFilter
      "bg-yellow-100 text-yellow-800"
  | Difficulty.hard =>
    DifficultyConfig.mk "Hard" "All countries including small ones" hardFilter
      "bg-red-100 text-red-800"

/-- Model of `filterCountriesByDifficulty` (`mapUtils.ts` / `gameLogic.ts`):
filter the list with the configured predicate. -/
def filterCountriesByDifficulty (countries : List CountryFeature) (difficulty : Difficulty) :
    List CountryFeature :=
  countries.filter (DIFFICULTY_CONFIGS difficulty).filter

/-- Structure `GameState` in `types.ts`. -/
structure GameState where
  currentQuestion : Option CountryFeature
  score : ℕ
  totalQuestions : ℕ
  selectedCountry : Option CountryFeature
  feedback : String
  gameStarted : Bool
  hoveredCountry : Option CountryFeature
  difficulty : Difficulty
deriving DecidableEq

/-- Sum type `GameAction` in `types.ts`. -/
inductive GameAction where
  | START_GAME
  | RESET_GAME
  | SET_QUESTION (payload : CountryFeature)
  | SELECT_COUNTRY (payload : CountryFeature)
  | SET_FEEDBACK (payload : String)
  | INCREMENT_SCORE
  | SET_HOVER (payload : Option CountryFeature)
  | SET_DIFFICULTY (payload : Difficulty)

/-- Constant `initialState` in `useGeographyGame.ts`. -/
def initialState : GameState :=
  GameState.mk none 0 0 none "" false none Difficulty.easy

/-- Model of `gameReducer` in `useGeographyGame.ts`.  Each arm rebuilds the
state record exactly as the corresponding `{ ...state, ... }` spread does;
`SET_DIFFICULTY` has no case in the source `switch` and falls to the
`default` arm, which returns the state unchanged. -/
def gameReducer (state : GameState) (action : GameAction) : GameState :=
  match action with
  | GameAction.START_GAME =>
    GameState.mk state.currentQuestion 0 0 none "" true state.hoveredCountry state.difficulty
  | GameAction.RESET_GAME => initialState
  | GameAction.SET_QUESTION payload =>
    GameState.mk (some payload) state.score (state.totalQuestions + 1) none ""
      state.gameStarted state.hoveredCountry state.difficulty
  | GameAction.SELECT_COUNTRY payload =>
    GameState.mk state.currentQuestion state.score state.totalQuestions (some payload)
      state.feedback state.gameStarted state.hoveredCountry state.difficulty
  | GameAction.SET_FEEDBACK payload =>
    GameState.mk state.currentQuestion state.score state.totalQuestions state.selectedCountry
      payload state.gameStarted state.hoveredCountry state.difficulty
  | GameAction.INCREMENT_SCORE =>
    GameState.mk state.currentQuestion (state.score + 1) state.totalQuestions
      state.selectedCountry state.feedback state.gameStarted state.hoveredCountry
      state.difficulty
  | GameAction.SET_HOVER payload =>
    GameState.mk state.currentQuestion state.score state.totalQuestions state.selectedCountry
      state.feedback state.gameStarted payload state.difficulty
  | GameAction.SET_DIFFICULTY _ => state

/-- Model of `generateQuestion` in `useGeographyGame.ts`: a no-op on the
empty list, otherwise dispatch `SET_QUESTION` with a list element.
`Math.floor(Math.random() * length)` is modelled by an explicit
`randomIndex` reduced modulo the (non-zero) length. -/
def generateQuestion (countries : List CountryFeature) (randomIndex : ℕ) (state : GameState) :
    GameState :=
  if countries.length = 0 then state
  else
    gameReducer state
      (GameAction.SET_QUESTION (countries.getD (randomIndex % countries.length) junkCountryFeature))

/-- The affirmative feedback string dispatched on a correct selection. -/
def correctFeedback : String := "Correct! Well done! 🎉"

/-- The feedback string dispatched on an incorrect selection, naming the
selected and the expected country. -/
def incorrectFeedback (selected question : CountryFeature) : String :=
  "Incorrect. You selected " ++ jsDisplay selected.properties.NAME ++
  ", but the answer was " ++ jsDisplay question.properties.NAME ++ "."

/-- Model of `selectCountry` in `useGeographyGame.ts`: a no-op without a
current question; otherwise dispatch `SELECT_COUNTRY`, then on an exact
`ISO_A2` match dispatch `INCREMENT_SCORE` and the affirmative feedback, and
otherwise only the negative feedback.  The trailing `setTimeout` that later
fires `generateQuestion` is modelled as a separate `PlayerAction.draw` step
of the action-sequence semantics below. -/
def selectCountry (state : GameState) (country : CountryFeature) : GameState :=
  match state.currentQuestion with
  | none => state
  | some q =>
    let s1 := gameReducer state (GameAction.SELECT_COUNTRY country)
    if country.properties.ISO_A2 = q.properties.ISO_A2 then
      gameReducer (gameReducer s1 GameAction.INCREMENT_SCORE)
        (GameAction.SET_FEEDBACK correctFeedback)
    else
      gameReducer s1 (GameAction.SET_FEEDBACK (incorrectFeedback country q))

/-- One player-visible operation of the hook: `startGame`, `resetGame`, the
(timer-fired) `generateQuestion`, `selectCountry`, `setHoveredCountry`. -/
inductive PlayerAction where
  | start (randomIndex : ℕ)
  | reset
  | draw (randomIndex : ℕ)
  | select (country : CountryFeature)
  | hover (country : Option CountryFeature)

/-- One step of the session: the hook callback triggered by the action. -/
def step (countries : List CountryFeature) (state : GameState) : PlayerAction → GameState
  | PlayerAction.start i => generateQuestion countries i (gameReducer state GameAction.START_GAME)
  | PlayerAction.reset => gameReducer state GameAction.RESET_GAME
  | PlayerAction.draw i => generateQuestion countries i state
  | PlayerAction.select c => selectCountry state c
  | PlayerAction.hover c => gameReducer state (GameAction.SET_HOVER c)

/-- A whole session: fold the steps from the initial state. -/
def run (countries : List CountryFeature) (actions : List PlayerAction) : GameState :=
  actions.foldl (step countries) initialState

/-- Model of `validateGameState` in `gameLogic.ts`: collect the error
messages for each violated sanity condition, in source order.  (The two
negativity checks are retained verbatim; over `ℕ` they can never fire, just
as they cannot for states reachable in the source reducer.) -/
def validateGameState (state : GameState) : List String :=
  (((if state.score < 0 then ["Score cannot be negative"] else []) ++
    (if state.totalQuestions < 0 then ["Total questions cannot be negative"] else [])) ++
   (if state.score > state.totalQuestions then ["Score cannot exceed total questions"] else [])) ++
  (if state.gameStarted ∧ state.currentQuestion = none then
    ["Game started but no current question"]
  else [])

/-- Model of `Math.round`: round half toward positive infinity. -/
def jsRound (q : ℚ) : ℤ := ⌊q + 1 / 2⌋

/-- Model of `calculateAccuracy` in `gameLogic.ts`. -/
def calculateAccuracy (score totalQuestions : ℚ) : ℚ :=
  if totalQuestions = 0 then 0
  else (jsRound (score / totalQuestions * 100) : ℚ)

/-- Model of the inline accuracy computation in `GameControls.tsx`:
`totalQuestions > 0 ? Math.round((score / totalQuestions) * 100) : 0`. -/
def gameControlsAccuracy (score totalQuestions : ℚ) : ℚ :=
  if totalQuestions > 0 then (jsRound (score / totalQuestions * 100) : ℚ)
  else 0

/-- Test fixture: a minimal raw feature with the given `NAME`, `ISO_A2` and
numeric `POP_EST`, tagged `"Feature"` with polygon geometry. -/
def mkRawFeature (name iso : String) (pop : ℚ) : RawCountryFeature :=
  RawCountryFeature.mk (JSVal.str "Feature")
    (some (RawCountryProperties.mk (JSVal.str name) JSVal.undef JSVal.undef JSVal.undef
      (JSVal.str iso) JSVal.undef JSVal.undef (JSVal.num pop) JSVal.undef JSVal.undef
      JSVal.undef JSVal.undef))
    (some (RawGeom.mk "Polygon"))

/-- Test fixture: a two-feature collection given out of name order. -/
def c1RawInput : RawGeoJsonData :=
  RawGeoJsonData.mk
    (some [some (mkRawFeature "France" "FR" 67000000),
           some (mkRawFeature "Brazil" "BR" 212000000)])

/-- The normalized output of `c1RawInput`: both records cleaned, in name
order. -/
def c1Output : List CountryFeature :=
  [cleanFeature (some (mkRawFeature "Brazil" "BR" 212000000)),
   cleanFeature (some (mkRawFeature "France" "FR" 67000000))]

/-- Test fixture: two accepted features that resolve to the same `ISO_A2`. -/
def c4RawDup : RawGeoJsonData :=
  RawGeoJsonData.mk
    (some [some (mkRawFeature "France" "FR" 67000000),
           some (mkRawFeature "Francia" "FR" 67000000)])

/-- The list the normalizer returns for `c4RawDup`. -/
def c4DupOut : List CountryFeature :=
  match prepareCountryData c4RawDup with
  | Except.ok l => l
  | Except.error _ => []

/-- Test fixture: an accepted feature carrying a negative numeric
population estimate. -/
def c7RawNeg : RawGeoJsonData :=
  RawGeoJsonData.mk (some [some (mkRawFeature "Negland" "NG" (-5000000))])

/-- The list the normalizer returns for `c7RawNeg`. -/
def c7NegOut : List CountryFeature :=
  match prepareCountryData c7RawNeg with
  | Except.ok l => l
  | Except.error _ => []

/-- Test fixture: a well-formed feature whose `ISO_A2` and `ISO` properties
are both the empty string, with a valid name and polygon geometry. -/
def c9RawFeature : RawCountryFeature :=
  RawCountryFeature.mk (JSVal.str "Feature")
    (some (RawCountryProperties.mk (JSVal.str "Atlantis") JSVal.undef JSVal.undef JSVal.undef
      (JSVal.str "") JSVal.undef (JSVal.str "") (JSVal.num 1000) JSVal.undef JSVal.undef
      JSVal.undef JSVal.undef))
    (some (RawGeom.mk "Polygon"))

/-- A well-formed collection containing only `c9RawFeature`. -/
def c9RawInput : RawGeoJsonData :=
  RawGeoJsonData.mk (some [some c9RawFeature])

/-- The list the normalizer returns for `c9RawInput`. -/
def c9Out : List CountryFeature :=
  match prepareCountryData c9RawInput with
  | Except.ok l => l
  | Except.error _ => []

/-- Test fixture: a cleaned record whose `NAME` is in the easy allow-list
while its `ADMIN` is not, with a small population. -/
def c6Record : CountryFeature :=
  CountryFeature.mk (JSVal.str "Feature") (some (RawGeom.mk "Polygon"))
    (CountryProperties.mk (JSVal.str "France") (JSVal.str "Frankreich") (JSVal.str "France")
      0 (JSVal.str "Europe") (JSVal.str "") (JSVal.str "") (JSVal.str "") (JSVal.str "FR")
      (JSVal.str ""))

/-- A cleaned country record used by the game-machine tests. -/
def franceRecord : CountryFeature :=
  cleanFeature (some (mkRawFeature "France" "FR" 67000000))

/-- A state holding `franceRecord` as its current question. -/
def c2State : GameState :=
  gameReducer initialState (GameAction.SET_QUESTION franceRecord)

/-- The session state after starting a one-country game and selecting the
(correct) country twice on the same question, before the delayed next draw
fires. -/
def c3FinalState : GameState :=
  run [franceRecord]
    [PlayerAction.start 0, PlayerAction.select franceRecord, PlayerAction.select franceRecord]
/-- The lexicographic comparator is total. -/
theorem charListLe_total : ∀ a b : List Char, charListLe a b = true ∨ charListLe b a = true
  | [], _ => Or.inl rfl
  | _ :: _, [] => Or.inr rfl
  | x :: xs, y :: ys => by
    by_cases hxy : x = y
    · subst hxy
      simpa [charListLe] using charListLe_total xs ys
    · rcases lt_or_gt_of_ne hxy with h | h
      · exact Or.inl (by simp [charListLe, hxy, h])
      · have hyx : y ≠ x := Ne.symm hxy
        exact Or.inr (by simp [charListLe, hyx, h])

/-- The lexicographic comparator is transitive. -/
theorem charListLe_trans :
    ∀ a b c : List Char,
      charListLe a b = true → charListLe b c = true → charListLe a c = true
  | [], _, _, _, _ => rfl
  | _ :: _, [], _, h1, _ => by simp [charListLe] at h1
  | _ :: _, _ :: _, [], _, h2 => by simp [charListLe] at h2
  | x :: xs, y :: ys, z :: zs, h1, h2 => by
    simp only [charListLe] at h1 h2 ⊢
    by_cases hxy : x = y
    · subst hxy
      by_cases hxz : x = z
      · subst hxz
        simp only [if_pos rfl] at h1 h2 ⊢
        exact charListLe_trans xs ys zs h1 h2
      · by_cases hyz : x = z
        · exact absurd hyz hxz
        · simp only [if_pos rfl] at h1
          simp only [if_neg hxz] at h2 ⊢
          exact h2
    · simp only [if_neg hxy, decide_eq_true_eq] at h1
      by_cases hyz : y = z
      · subst hyz
        simp only [if_neg hxy, decide_eq_true_eq]
        exact h1
      · simp only [if_neg hyz, decide_eq_true_eq] at h2
        have hxz : x < z := lt_trans h1 h2
        simp only [if_neg (ne_of_lt hxz), decide_eq_true_eq]
        exact hxz

/-- Transitivity of `nameLe`, in the form `List.sorted_mergeSort` expects. -/
theorem nameLe_trans_bool (a b c : CountryFeature)
    (h1 : nameLe a b = true) (h2 : nameLe b c = true) : nameLe a c = true :=
  charListLe_trans _ _ _ h1 h2

/-- Totality of `nameLe`, in the form `List.sorted_mergeSort` expects. -/
theorem nameLe_total_bool (a b : CountryFeature) : (nameLe a b || nameLe b a) = true := by
  rcases charListLe_total (nameStr a).data (nameStr b).data with h | h
  · simp [nameLe, strLe, h]
  · simp [nameLe, strLe, h]
/-- A value passing the `typeof === "string"` test is a string literal. -/
theorem JSVal.isString_iff (v : JSVal) : v.isString = true ↔ ∃ s, v = JSVal.str s := by
  cases v <;> simp [JSVal.isString]

/-- When the name fallback chain produces a string, that string is
non-empty: each `||` link only passes truthy (hence non-empty) strings
along, and the final literal `"Unknown"` is non-empty. -/
theorem getBestName_str_ne_empty (p : RawCountryProperties) (s : String)
    (h : getBestName p = JSVal.str s) : s ≠ "" := by
  unfold getBestName jsOr at h
  split_ifs at h with h1 h2 h3
  · rw [h] at h1; simpa [JSVal.truthy] using h1
  · rw [h] at h2; simpa [JSVal.truthy] using h2
  · rw [h] at h3; simpa [JSVal.truthy] using h3
  · have h' : s = "Unknown" := by injection h with h'; exact h'.symm
    subst h'; decide

/-- Unfolding of the second-pass filter into its four conjuncts. -/
theorem essentialFilter_eq_true (c : CountryFeature) :
    essentialFilter c = true ↔
      (c.properties.NAME.isString = true ∧ c.properties.NAME ≠ JSVal.str "Unknown" ∧
       c.properties.ISO_A2.isString = true ∧ c.properties.ISO_A2 ≠ JSVal.str "-99") := by
  simp [essentialFilter, Bool.and_eq_true, bne_iff_ne, and_assoc]

/-- An element accepted by `validateCountryFeature` is a present feature
with a present properties object. -/
theorem validateCountryFeature_some (x : Option RawCountryFeature)
    (h : validateCountryFeature x = true) :
    ∃ f p, x = some f ∧ f.properties = some p := by
  cases x with
  | none => simp [validateCountryFeature] at h
  | some f =>
    cases hp : f.properties with
    | none => simp [validateCountryFeature, hp] at h
    | some p => exact ⟨f, p, rfl, hp⟩

/-- The cleaned `NAME` of an accepted feature is the name fallback chain. -/
theorem cleanFeature_NAME (f : RawCountryFeature) (p : RawCountryProperties)
    (hp : f.properties = some p) :
    (cleanFeature (some f)).properties.NAME = getBestName p := by
  simp [cleanFeature, hp]

/-- The cleaned `POP_EST` of an accepted feature is the parsed population. -/
theorem cleanFeature_POP (f : RawCountryFeature) (p : RawCountryProperties)
    (hp : f.properties = some p) :
    (cleanFeature (some f)).properties.POP_EST = parsePopulation p.POP_EST := by
  simp [cleanFeature, hp]

/-- On a collection with an array of features, the normalizer succeeds with
the validate-clean-filter-sort pipeline result. -/
theorem prepareCountryData_some_eq (fs : List (Option RawCountryFeature)) :
    prepareCountryData (RawGeoJsonData.mk (some fs)) =
      Except.ok ((((fs.filter validateCountryFeature).map cleanFeature).filter
        essentialFilter).mergeSort nameLe) := rfl

/-- Every record in a successful normalizer output is the cleaning of an
accepted input feature and passes the essential filter. -/
theorem prepareCountryData_mem (raw : RawGeoJsonData) (fs : List (Option RawCountryFeature))
    (out : List CountryFeature) (c : CountryFeature)
    (hf : raw.features = some fs) (h : prepareCountryData raw = Except.ok out)
    (hc : c ∈ out) :
    ∃ x ∈ fs, validateCountryFeature x = true ∧ cleanFeature x = c ∧
      essentialFilter c = true := by
  unfold prepareCountryData at h
  rw [hf] at h
  cases h
  rw [List.mem_mergeSort, List.mem_filter] at hc
  obtain ⟨hm, hess⟩ := hc
  rw [List.mem_map] at hm
  obtain ⟨x, hx, hcl⟩ := hm
  rw [List.mem_filter] at hx
  exact ⟨x, hx.1, hx.2, hcl, hess⟩
/-- Claim C1: for every raw feature collection the normalizer accepts, every
record in the returned list has a non-empty string `NAME` that is not the
literal `"Unknown"` and an `ISO_A2` different from the sentinel `"-99"`, and
the returned list is sorted ascending by `NAME` under the modelled
`localeCompare` order. -/
theorem C1_normalizer_output_clean_and_sorted (raw : RawGeoJsonData)
    (out : List CountryFeature) (h : prepareCountryData raw = Except.ok out) :
    (∀ c ∈ out, (∃ s, c.properties.NAME = JSVal.str s ∧ s ≠ "" ∧ s ≠ "Unknown") ∧
      c.properties.ISO_A2 ≠ JSVal.str "-99") ∧
    List.Sorted (fun a b => nameLe a b = true) out := by
  cases raw with
  | mk feats =>
    cases feats with
    | none => simp [prepareCountryData] at h
    | some fs =>
      rw [prepareCountryData_some_eq] at h
      injection h with h'
      subst h'
      constructor
      · intro c hc
        obtain ⟨x, hxmem, hval, hclean, hess⟩ :=
          prepareCountryData_mem (RawGeoJsonData.mk (some fs)) fs _ c rfl
            (prepareCountryData_some_eq fs) hc
        rw [essentialFilter_eq_true] at hess
        obtain ⟨hstr, hunk, _, hiso99⟩ := hess
        obtain ⟨s, hs⟩ := (JSVal.isString_iff _).mp hstr
        obtain ⟨f, p, rfl, hp⟩ := validateCountryFeature_some x hval
        refine ⟨⟨s, hs, ?_, ?_⟩, hiso99⟩
        · apply getBestName_str_ne_empty p
          rw [← cleanFeature_NAME f p hp, hclean, hs]
        · intro e
          exact hunk (by rw [hs, e])
      · exact List.sorted_mergeSort nameLe_trans_bool nameLe_total_bool _

unseal List.mergeSort List.merge in
/-- Witness for C1 at a concrete two-feature collection given out of name
order. -/
theorem C1_witness :
    (∀ c ∈ c1Output, (∃ s, c.properties.NAME = JSVal.str s ∧ s ≠ "" ∧ s ≠ "Unknown") ∧
      c.properties.ISO_A2 ≠ JSVal.str "-99") ∧
    List.Sorted (fun a b => nameLe a b = true) c1Output :=
  C1_normalizer_output_clean_and_sorted c1RawInput c1Output rfl
/-- Claim C2: with a current question set, `selectCountry` increments the
score by exactly one and sets feedback containing `"Correct"` exactly when
the selected record's `ISO_A2` equals the question's `ISO_A2`; otherwise it
leaves the score unchanged and sets feedback naming both the selected and
the expected country.  ISO-code equality is the sole correctness check. -/
theorem C2_select_country_iso_scoring (s : GameState) (q c : CountryFeature)
    (h : s.currentQuestion = some q) :
    (c.properties.ISO_A2 = q.properties.ISO_A2 →
      (selectCountry s c).score = s.score + 1 ∧
      strContains (selectCountry s c).feedback "Correct") ∧
    (c.properties.ISO_A2 ≠ q.properties.ISO_A2 →
      (selectCountry s c).score = s.score ∧
      strContains (selectCountry s c).feedback (jsDisplay c.properties.NAME) ∧
      strContains (selectCountry s c).feedback (jsDisplay q.properties.NAME)) := by
  have e : selectCountry s c =
      (if c.properties.ISO_A2 = q.properties.ISO_A2 then
        gameReducer (gameReducer (gameReducer s (GameAction.SELECT_COUNTRY c))
          GameAction.INCREMENT_SCORE) (GameAction.SET_FEEDBACK correctFeedback)
      else
        gameReducer (gameReducer s (GameAction.SELECT_COUNTRY c))
          (GameAction.SET_FEEDBACK (incorrectFeedback c q))) := by
    simp only [selectCountry, h]
  constructor
  · intro hiso
    rw [e, if_pos hiso]
    refine ⟨by simp [gameReducer], "", "! Well done! 🎉", ?_⟩
    rw [show (gameReducer (gameReducer (gameReducer s (GameAction.SELECT_COUNTRY c))
      GameAction.INCREMENT_SCORE) (GameAction.SET_FEEDBACK correctFeedback)).feedback =
        correctFeedback from rfl]
    decide
  · intro hiso
    rw [e, if_neg hiso]
    refine ⟨by simp [gameReducer], ?_, ?_⟩
    · refine ⟨"Incorrect. You selected ",
        ", but the answer was " ++ jsDisplay q.properties.NAME ++ ".", ?_⟩
      rw [show (gameReducer (gameReducer s (GameAction.SELECT_COUNTRY c))
        (GameAction.SET_FEEDBACK (incorrectFeedback c q))).feedback =
          incorrectFeedback c q from rfl]
      simp [incorrectFeedback, String.append_assoc]
    · refine ⟨"Incorrect. You selected " ++ jsDisplay c.properties.NAME ++
        ", but the answer was ", ".", ?_⟩
      rw [show (gameReducer (gameReducer s (GameAction.SELECT_COUNTRY c))
        (GameAction.SET_FEEDBACK (incorrectFeedback c q))).feedback =
          incorrectFeedback c q from rfl]
      simp [incorrectFeedback, String.append_assoc]

/-- Witness for C2: selecting the country that is the current question. -/
theorem C2_witness :
    (franceRecord.properties.ISO_A2 = franceRecord.properties.ISO_A2 →
      (selectCountry c2State franceRecord).score = c2State.score + 1 ∧
      strContains (selectCountry c2State franceRecord).feedback "Correct") ∧
    (franceRecord.properties.ISO_A2 ≠ franceRecord.properties.ISO_A2 →
      (selectCountry c2State franceRecord).score = c2State.score ∧
      strContains (selectCountry c2State franceRecord).feedback
        (jsDisplay franceRecord.properties.NAME) ∧
      strContains (selectCountry c2State franceRecord).feedback
        (jsDisplay franceRecord.properties.NAME)) :=
  C2_select_country_iso_scoring c2State franceRecord franceRecord rfl

/-- Claim C3 (evaluation at the failing input): starting a one-country game
and selecting the correct country twice on the same question, before the
delayed next draw fires, yields score 2 with totalQuestions 1 — violating
`score <= totalQuestions` — and the code's own `validateGameState` flags
exactly this violation. -/
theorem C3_repeated_select_exceeds_total :
    c3FinalState.score = 2 ∧ c3FinalState.totalQuestions = 1 ∧
    validateGameState c3FinalState = ["Score cannot exceed total questions"] := by
  decide

/-- Claim C8: invalid in-game actions are silent no-ops that leave the state
entirely unchanged: with no current question `selectCountry` changes
nothing, and on the empty available-country list `generateQuestion` changes
nothing. -/
theorem C8_invalid_actions_are_noops (s : GameState) (c : CountryFeature) (i : ℕ)
    (h : s.currentQuestion = none) :
    selectCountry s c = s ∧ generateQuestion [] i s = s := by
  constructor
  · simp only [selectCountry, h]
  · simp [generateQuestion]

/-- Witness for C8 at the initial state. -/
theorem C8_witness :
    selectCountry initialState franceRecord = initialState ∧
    generateQuestion [] 0 initialState = initialState :=
  C8_invalid_actions_are_noops initialState franceRecord 0 rfl

/-- Claim C10: the accuracy computation is total with a guarded division:
it returns 0 when `totalQuestions` is 0 and the rounded percentage
otherwise, and on the non-negative inputs the game supplies it agrees with
the inline guarded computation of `GameControls.tsx`, whose
division-by-zero branch is therefore unreachable. -/
theorem C10_accuracy_division_guarded (score totalQuestions : ℚ)
    (_hs : 0 ≤ score) (ht : 0 ≤ totalQuestions) :
    calculateAccuracy score totalQuestions = gameControlsAccuracy score totalQuestions ∧
    (totalQuestions = 0 → calculateAccuracy score totalQuestions = 0) ∧
    (totalQuestions ≠ 0 →
      calculateAccuracy score totalQuestions =
        (jsRound (score / totalQuestions * 100) : ℚ)) := by
  rcases eq_or_lt_of_le ht with h0 | hpos
  · refine ⟨?_, fun _ => ?_, fun hne => absurd h0.symm hne⟩ <;>
      simp [calculateAccuracy, gameControlsAccuracy, ← h0]
  · have hne : totalQuestions ≠ 0 := ne_of_gt hpos
    exact ⟨by simp [calculateAccuracy, gameControlsAccuracy, hne, hpos],
      fun h => absurd h hne, fun _ => by simp [calculateAccuracy, hne]⟩

/-- Witness for C10 at zero score and zero questions. -/
theorem C10_witness :
    calculateAccuracy 0 0 = gameControlsAccuracy 0 0 ∧
    ((0 : ℚ) = 0 → calculateAccuracy 0 0 = 0) ∧
    ((0 : ℚ) ≠ 0 → calculateAccuracy 0 0 = (jsRound (0 / 0 * 100) : ℚ)) :=
  C10_accuracy_division_guarded 0 0 le_rfl le_rfl
unseal List.mergeSort List.merge in
/-- Counterexample to C4: two accepted features resolving to the same
`ISO_A2` code `"FR"` both survive normalization, so the returned list has a
duplicate `ISO_A2`. -/
theorem C4_counterexample :
    (c4DupOut.map fun c => c.properties.ISO_A2) = [JSVal.str "FR", JSVal.str "FR"] ∧
    ¬ List.Pairwise (fun a b => a.properties.ISO_A2 ≠ b.properties.ISO_A2) c4DupOut := by
  decide

/-- Claim C4 (amended): the normalizer performs no deduplication of its own;
whenever the accepted, cleaned input features already carry pairwise-distinct
`ISO_A2` codes, the returned list contains no two records with the same
`ISO_A2`. -/
theorem C4_amended_no_new_duplicates (raw : RawGeoJsonData)
    (fs : List (Option RawCountryFeature)) (out : List CountryFeature)
    (hf : raw.features = some fs) (h : prepareCountryData raw = Except.ok out)
    (hnd : (((fs.filter validateCountryFeature).map cleanFeature).map
      (fun c => c.properties.ISO_A2)).Nodup) :
    List.Pairwise (fun a b => a.properties.ISO_A2 ≠ b.properties.ISO_A2) out := by
  cases raw
  cases hf
  rw [prepareCountryData_some_eq] at h
  injection h with h'
  subst h'
  have hsub : ((((fs.filter validateCountryFeature).map cleanFeature).filter
      essentialFilter).map (fun c => c.properties.ISO_A2)).Nodup :=
    ((List.filter_sublist _).map _).nodup hnd
  have hperm :=
    (List.mergeSort_perm
      (((fs.filter validateCountryFeature).map cleanFeature).filter essentialFilter)
      nameLe).map (fun c => c.properties.ISO_A2)
  exact List.pairwise_map.mp (hperm.nodup_iff.mpr hsub)

unseal List.mergeSort List.merge in
/-- Witness for the amended C4 at a concrete collection with distinct
codes. -/
theorem C4_witness :
    List.Pairwise (fun a b => a.properties.ISO_A2 ≠ b.properties.ISO_A2) c1Output :=
  C4_amended_no_new_duplicates c1RawInput _ c1Output rfl rfl (by decide)

/-- Claim C5: the normalizer fails exactly when the input does not carry an
array-valued features list, and on a well-formed input whose features array
is empty it returns the empty list without error. -/
theorem C5_error_iff_no_features_array (raw : RawGeoJsonData) :
    ((∃ msg, prepareCountryData raw = Except.error msg) ↔ raw.features = none) ∧
    prepareCountryData (RawGeoJsonData.mk (some [])) = Except.ok [] := by
  constructor
  · cases raw with
    | mk feats =>
      cases feats with
      | none => simp [prepareCountryData]
      | some fs => simp [prepareCountryData]
  · rw [prepareCountryData_some_eq]
    simp [List.mergeSort_nil]

/-- Witness for C5 at the malformed input with no features array. -/
theorem C5_witness :
    ((∃ msg, prepareCountryData (RawGeoJsonData.mk none) = Except.error msg) ↔
      (RawGeoJsonData.mk none).features = none) ∧
    prepareCountryData (RawGeoJsonData.mk (some [])) = Except.ok [] :=
  C5_error_iff_no_features_array (RawGeoJsonData.mk none)

/-- Counterexample to C6: a record whose `NAME` is in the allow-list while
its `ADMIN` is not, with a small population, is rejected by the easy filter,
refuting the claimed acceptance condition phrased on the record's name. -/
theorem C6_counterexample :
    ¬ (easyFilter c6Record = true ↔
      (c6Record.properties.POP_EST > 50000000 ∨
        ∃ s ∈ easyAllowList, c6Record.properties.NAME = JSVal.str s)) := by
  decide

/-- Claim C6 (amended): the easy filter accepts a record iff its population
exceeds 50,000,000 or its `ADMIN` name is in the fixed allow-list of widely
known large countries; the medium filter accepts iff population is strictly
greater than 10,000,000 and at most 50,000,000; the hard filter accepts
every record (identity on the list). -/
theorem C6_amended_difficulty_filters (c : CountryFeature) (l : List CountryFeature) :
    (easyFilter c = true ↔
      (c.properties.POP_EST > 50000000 ∨
        ∃ s ∈ easyAllowList, c.properties.ADMIN = JSVal.str s)) ∧
    (mediumFilter c = true ↔
      (10000000 < c.properties.POP_EST ∧ c.properties.POP_EST ≤ 50000000)) ∧
    filterCountriesByDifficulty l Difficulty.hard = l := by
  refine ⟨?_, ?_, ?_⟩
  · cases hv : c.properties.ADMIN <;> simp [easyFilter, jsIncludesStr, hv]
  · simp [mediumFilter]
  · simp [filterCountriesByDifficulty, DIFFICULTY_CONFIGS, hardFilter]

/-- Witness for the amended C6 at a concrete record and the empty list. -/
theorem C6_witness :
    (easyFilter franceRecord = true ↔
      (franceRecord.properties.POP_EST > 50000000 ∨
        ∃ s ∈ easyAllowList, franceRecord.properties.ADMIN = JSVal.str s)) ∧
    (mediumFilter franceRecord = true ↔
      (10000000 < franceRecord.properties.POP_EST ∧
        franceRecord.properties.POP_EST ≤ 50000000)) ∧
    filterCountriesByDifficulty [] Difficulty.hard = [] :=
  C6_amended_difficulty_filters franceRecord []

unseal List.mergeSort List.merge in
/-- Counterexample to C7: a negative numeric `POP_EST` passes through the
normalizer unclamped, so an accepted record ends up with a negative
population. -/
theorem C7_counterexample :
    (c7NegOut.map fun c => c.properties.POP_EST) = [-5000000] ∧
    (c7NegOut.all fun c => decide (0 ≤ c.properties.POP_EST)) = false := by
  decide

/-- Claim C7 (amended): each output record's population is exactly
`parsePopulation` of the accepted feature's raw `POP_EST`: the number itself
for numeric input (so negative estimates pass through unclamped), the parsed
float for string input, and 0 when the parse fails or the value is neither a
number nor a string. -/
theorem C7_amended_population_parse (raw : RawGeoJsonData)
    (fs : List (Option RawCountryFeature)) (out : List CountryFeature)
    (hf : raw.features = some fs) (h : prepareCountryData raw = Except.ok out) :
    (∀ c ∈ out, ∃ f p, some f ∈ fs ∧ f.properties = some p ∧
      c.properties.POP_EST = parsePopulation p.POP_EST) ∧
    (∀ q, parsePopulation (JSVal.num q) = q) ∧
    (∀ s, jsParseFloat s = none → parsePopulation (JSVal.str s) = 0) ∧
    parsePopulation JSVal.undef = 0 ∧ parsePopulation JSVal.nul = 0 ∧
    (∀ b, parsePopulation (JSVal.bool b) = 0) ∧ parsePopulation JSVal.obj = 0 := by
  refine ⟨?_, fun q => rfl, fun s hs => by simp [parsePopulation, hs], rfl, rfl,
    fun b => rfl, rfl⟩
  intro c hc
  obtain ⟨x, hxmem, hval, hclean, -⟩ := prepareCountryData_mem raw fs out c hf h hc
  obtain ⟨f, p, rfl, hp⟩ := validateCountryFeature_some x hval
  exact ⟨f, p, hxmem, hp, by rw [← hclean, cleanFeature_POP f p hp]⟩

unseal List.mergeSort List.merge in
/-- Witness for the amended C7 at a concrete two-feature collection. -/
theorem C7_witness :
    (∀ c ∈ c1Output, ∃ f p,
      some f ∈ [some (mkRawFeature "France" "FR" 67000000),
                some (mkRawFeature "Brazil" "BR" 212000000)] ∧
      f.properties = some p ∧
      c.properties.POP_EST = parsePopulation p.POP_EST) ∧
    (∀ q, parsePopulation (JSVal.num q) = q) ∧
    (∀ s, jsParseFloat s = none → parsePopulation (JSVal.str s) = 0) ∧
    parsePopulation JSVal.undef = 0 ∧ parsePopulation JSVal.nul = 0 ∧
    (∀ b, parsePopulation (JSVal.bool b) = 0) ∧ parsePopulation JSVal.obj = 0 :=
  C7_amended_population_parse c1RawInput _ c1Output rfl rfl

unseal List.mergeSort List.merge in
/-- Claim C9: the second-pass ISO filter excludes only the exact sentinel
`"-99"`: the well-formed input `c9RawInput`, whose single feature has
empty-string `ISO_A2` and `ISO` properties with a valid name and polygon
geometry, normalizes to a list containing a record whose `ISO_A2` is the
empty string. -/
theorem C9_empty_iso_code_survives :
    (c9Out.map fun c => c.properties.ISO_A2) = [JSVal.str ""] := by
  decide
